import Mathlib

/-!
Shallow embedding of `apa_formatter.py`: the `TextParser.parse` line-classification
state machine and the `APAFormatter` block-to-style mapping (`_create_body`,
`_create_title_page`, `_create_references`, `create_document`).

Strings are modelled as `List Char`; Python `str.strip` / `str.lower` /
`str.isupper` are modelled with Lean's `Char.isWhitespace` / `Char.toLower` /
`Char.isUpper` (these agree on the ASCII inputs relevant here).
`re.search` with a lazy group is modelled by leftmost-opening / earliest-closing
delimiter scanning, which coincides with the regex semantics for the two
patterns the code uses.
-/

namespace ApaSpec

/-- The backtick character, U+0060. -/
def tick : Char := Char.ofNat 96

def hashChar : Char := '#'

def dashChar : Char := '-'

/-- The horizontal-rule token `---` that `parse` compares against. -/
def dashes : List Char := [dashChar, dashChar, dashChar]

/-- The word the marker check compares the lowercased stripped line against. -/
def refsWord : List Char := "references".toList

def spaceChar : Char := ' '

def dotChar : Char := '.'

/-- Python `str.strip()` on a line: drop whitespace from both ends. -/
def strip (l : List Char) : List Char :=
  ((l.dropWhile Char.isWhitespace).reverse.dropWhile Char.isWhitespace).reverse

/-- Python `str.lower()`. -/
def lowerList (l : List Char) : List Char := l.map Char.toLower

/-- Python `raw_text.split('\n')`. -/
def splitLines : List Char → List (List Char)
  | [] => [[]]
  | c :: rest =>
    if c = '\n' then [] :: splitLines rest
    else
      match splitLines rest with
      | [] => [[c]]
      | l :: ls => (c :: l) :: ls

/-- Python `' '.join(current_paragraph)`. -/
def joinSpace : List (List Char) → List Char
  | [] => []
  | [l] => l
  | l :: ls => l ++ spaceChar :: joinSpace ls

/-- `stripped.startswith('#')`. -/
def startsWithHash : List Char → Bool
  | [] => false
  | c :: _ => c = hashChar

/-- `stripped.startswith('---')`. -/
def startsWith3Dashes : List Char → Bool
  | a :: b :: c :: _ => a = dashChar ∧ b = dashChar ∧ c = dashChar
  | _ => false

/-- The lookahead loop at `apa_formatter.py:249-254`: scan the remaining lines
for the first one that is non-empty after stripping, and report whether its
first character is uppercase (`future_line.strip()[0].isupper()`). -/
def nextLooksRef : List (List Char) → Bool
  | [] => false
  | l :: ls =>
    match strip l with
    | [] => nextLooksRef ls
    | c :: _ => c.isUpper

/-- Suffix following the first occurrence of ```` `` ```` (the part of
`re.search(r'``(.+?)``', s)` that fixes the leftmost opening delimiter). -/
def afterTicks2 : List Char → Option (List Char)
  | [] => none
  | [_] => none
  | a :: b :: rest =>
    if a = tick ∧ b = tick then some rest else afterTicks2 (b :: rest)

/-- Prefix of the input before its first occurrence of ```` `` ````
(`none` when there is none): the lazy-group scan for the closing delimiter. -/
def upToTicks2 : List Char → Option (List Char)
  | [] => none
  | [_] => none
  | a :: b :: rest =>
    if a = tick ∧ b = tick then some []
    else (upToTicks2 (b :: rest)).map (fun t => a :: t)

/-- `re.search(r'``(.+?)``', s)` returning `group(1)`: content between the
leftmost opening double backtick and the earliest closing double backtick that
leaves at least one content character. -/
def search2 (s : List Char) : Option (List Char) :=
  match afterTicks2 s with
  | none => none
  | some [] => none
  | some (c :: rest) =>
    match upToTicks2 rest with
    | none => none
    | some content => some (c :: content)

/-- Suffix following the first single backtick. -/
def afterTick1 : List Char → Option (List Char)
  | [] => none
  | a :: rest => if a = tick then some rest else afterTick1 rest

/-- Prefix before the first single backtick (`none` when there is none). -/
def upToTick1 : List Char → Option (List Char)
  | [] => none
  | a :: rest =>
    if a = tick then some []
    else (upToTick1 rest).map (fun t => a :: t)

/-- `re.search(r'`(.+?)`', s)` returning `group(1)`. -/
def search1 (s : List Char) : Option (List Char) :=
  match afterTick1 s with
  | none => none
  | some [] => none
  | some (c :: rest) =>
    match upToTick1 rest with
    | none => none
    | some content => some (c :: content)

/-- One parsed block: the dicts `{'type': 'heading'|'paragraph'|'math', ...}`
that `TextParser.parse` appends to `body_content`. -/
inductive Block where
  | heading (level : Nat) (text : List Char)
  | paragraph (text : List Char)
  | math (formula : List Char)
deriving DecidableEq, Repr

/-- The loop state of `TextParser.parse`. -/
structure ParseState where
  body_content : List Block
  references : List (List Char)
  in_references : Bool
  current_paragraph : List (List Char)
deriving DecidableEq, Repr

/-- The flush of `current_paragraph` into a `paragraph` block
(`apa_formatter.py:259-264` and its copies). -/
def flushPara (st : ParseState) : ParseState :=
  if st.current_paragraph = [] then st
  else
    { st with
      body_content :=
        st.body_content ++ [Block.paragraph (joinSpace st.current_paragraph)]
      current_paragraph := [] }

def setRefs (st : ParseState) : ParseState := { st with in_references := true }

def addRef (st : ParseState) (r : List Char) : ParseState :=
  { st with references := st.references ++ [r] }

def addCur (st : ParseState) (l : List Char) : ParseState :=
  { st with current_paragraph := st.current_paragraph ++ [l] }

/-- Heading emission (`apa_formatter.py:273-295`): flush, count leading `#`s,
clamp the level to 5, strip the remainder. -/
def emitHeading (st : ParseState) (stripped : List Char) : ParseState :=
  { st with
    body_content :=
      st.body_content ++
        [Block.heading (min (stripped.takeWhile (fun c => c = hashChar)).length 5)
          (strip (stripped.drop (stripped.takeWhile (fun c => c = hashChar)).length))] }

/-- Formula emission (`apa_formatter.py:306-316`): try the double-backtick
pattern first, fall back to single backticks, emit only on a match. -/
def emitFormula (st : ParseState) (stripped : List Char) : ParseState :=
  match (match search2 stripped with
         | some f => some f
         | none => search1 stripped) with
  | some f => { st with body_content := st.body_content ++ [Block.math f] }
  | none => st

/-- One iteration of the `for i, line in enumerate(lines)` loop of
`TextParser.parse` (`apa_formatter.py:242-328`); `rest` is `lines[i+1:]`,
so `rest ≠ []` is `i + 1 < len(lines)`. -/
def parseLine (st : ParseState) (line : List Char) (rest : List (List Char)) :
    ParseState :=
  if lowerList (strip line) = refsWord ∨ (strip line = dashes ∧ rest ≠ []) then
    flushPara
      (if strip line = dashes then
        (if nextLooksRef rest then setRefs st else st)
      else setRefs st)
  else if st.in_references then
    (if strip line ≠ [] then addRef st (strip line) else st)
  else if startsWithHash (strip line) then
    emitHeading (flushPara st) (strip line)
  else if (afterTicks2 (strip line)).isSome ∨ tick ∈ strip line then
    emitFormula (flushPara st) (strip line)
  else if strip line ≠ [] ∧ startsWith3Dashes (strip line) = false then
    addCur st (strip line)
  else if st.current_paragraph ≠ [] then
    flushPara st
  else st

/-- Drive `parseLine` over all lines, handing each line its true suffix. -/
def parseLoop : List (List Char) → ParseState → ParseState
  | [], st => st
  | l :: rest, st => parseLoop rest (parseLine st l rest)

/-- `TextParser.parse`: split into lines, run the loop from the empty state,
flush the trailing paragraph, return `(body_content, references)`. -/
def parse (raw_text : List Char) : List Block × List (List Char) :=
  let st := flushPara (parseLoop (splitLines raw_text) ⟨[], [], false, []⟩)
  (st.body_content, st.references)

/-- `WD_ALIGN_PARAGRAPH` values used by the formatter. -/
inductive Align where
  | left
  | center
  | right
deriving DecidableEq, Repr

/-- One text run inside a rendered paragraph (`para.add_run(...)`); python-docx
run flags default to unset, modelled as `false`. -/
structure TextRun where
  text : List Char
  bold : Bool
  italic : Bool
deriving DecidableEq, Repr

/-- One rendered paragraph with its layout directives. Indents are in
hundredths of an inch: `Inches(0.5)` is `50`, `Inches(-0.5)` is `-50`;
`none` means the attribute was never set. -/
structure Para where
  alignment : Option Align
  left_indent : Option Int
  first_line_indent : Option Int
  runs : List TextRun
deriving DecidableEq, Repr

/-- The run-in directive for a level-4/5 heading followed by a paragraph
(`apa_formatter.py:147-161`): one paragraph, left indent 0.5, first-line
indent 0, a bold heading run `text + '. '` (italic when level 5) and a plain
run with the consumed paragraph's text. -/
def runInPara (level : Nat) (text ptext : List Char) : Para :=
  ⟨none, some 50, some 0,
    [⟨text ++ [dotChar, spaceChar], true, level == 5⟩, ⟨ptext, false, false⟩]⟩

/-- The regular-heading directive (`apa_formatter.py:163-186`): levels 1-3 get
alignment and emphasis; standalone levels 4-5 get left indent 0.5, bold
(italic when level 5), and an extra `'.'` run unless the text already ends
with a period; any other level falls through every styling branch. -/
def headingPara (level : Nat) (text : List Char) : Para :=
  if level = 1 then ⟨some Align.center, none, none, [⟨text, true, false⟩]⟩
  else if level = 2 then ⟨some Align.left, none, none, [⟨text, true, false⟩]⟩
  else if level = 3 then ⟨some Align.left, none, none, [⟨text, true, true⟩]⟩
  else if level = 4 ∨ level = 5 then
    ⟨none, some 50, none,
      if text.getLast? = some dotChar then [⟨text, true, level == 5⟩]
      else [⟨text, true, level == 5⟩, ⟨[dotChar], false, false⟩]⟩
  else ⟨none, none, none, [⟨text, false, false⟩]⟩

/-- The body-paragraph directive (`apa_formatter.py:188-190`). -/
def plainPara (text : List Char) : Para :=
  ⟨none, none, some 50, [⟨text, false, false⟩]⟩

/-- The formula directive (`apa_formatter.py:192-196`). -/
def mathPara (formula : List Char) : Para :=
  ⟨some Align.center, none, none, [⟨formula, false, true⟩]⟩

/-- `APAFormatter._create_body`: the index-driven loop with one-block
lookahead; a level-4/5 heading immediately followed by a paragraph consumes
both blocks (`i += 2`) and yields the single run-in directive. -/
def create_body : List Block → List Para
  | [] => []
  | Block.heading level text :: Block.paragraph ptext :: rest2 =>
    if level = 4 ∨ level = 5 then
      runInPara level text ptext :: create_body rest2
    else headingPara level text :: create_body (Block.paragraph ptext :: rest2)
  | Block.heading level text :: rest => headingPara level text :: create_body rest
  | Block.paragraph text :: rest => plainPara text :: create_body rest
  | Block.math formula :: rest => mathPara formula :: create_body rest

/-- The exception `title_data['title']` raises when the key is absent. -/
inductive DocErr where
  | keyErrorTitle
deriving DecidableEq, Repr

/-- `title_data`: the `'title'` key is required by use; the five optional keys
are emitted only when present and truthy (non-empty). `none` models an absent
key, `some []` a present-but-empty value. -/
structure TitleData where
  title : Option (List Char)
  author : Option (List Char)
  institution : Option (List Char)
  course : Option (List Char)
  instructor : Option (List Char)
  date : Option (List Char)
deriving DecidableEq, Repr

/-- One mutation `create_document` performs on the in-memory document, in
execution order. -/
inductive Rendered where
  | setDefaults
  | setMargins
  | addPageNumbers
  | blankPara
  | centeredBold (s : List Char)
  | centeredText (s : List Char)
  | pageBreak
  | bodyPara (p : Para)
  | refsHeading
  | refEntry (s : List Char)
deriving DecidableEq, Repr

/-- The optional-field loop of `_create_title_page` (`apa_formatter.py:129-132`):
`if key in title_data and title_data[key]`. -/
def titleFields (td : TitleData) : List Rendered :=
  [td.author, td.institution, td.course, td.instructor, td.date].filterMap
    (fun o =>
      match o with
      | none => none
      | some s => if s = [] then none else some (Rendered.centeredText s))

/-- `APAFormatter._create_title_page` (`apa_formatter.py:113-132`): three blank
paragraphs are added first; the `title_data['title']` lookup then raises a
`KeyError` when the key is absent, leaving the blanks already in the document. -/
def create_title_page (td : TitleData) : List Rendered × Option DocErr :=
  match td.title with
  | none =>
    ([Rendered.blankPara, Rendered.blankPara, Rendered.blankPara],
      some DocErr.keyErrorTitle)
  | some t =>
    ([Rendered.blankPara, Rendered.blankPara, Rendered.blankPara,
      Rendered.centeredBold t, Rendered.blankPara] ++ titleFields td, none)

/-- `APAFormatter._create_references` (`apa_formatter.py:200-215`): nothing when
the list is empty, else a centered-bold heading and one hanging-indent entry
per non-blank reference. -/
def create_references (refs : List (List Char)) : List Rendered :=
  if refs = [] then []
  else
    Rendered.refsHeading ::
      refs.filterMap (fun r => if strip r = [] then none else some (Rendered.refEntry (strip r)))

/-- `APAFormatter.create_document` (`apa_formatter.py:21-65`): defaults,
margins and page numbers are configured, then the title page is built; a
`KeyError` there aborts the remaining steps, leaving the mutations performed
so far in the in-memory document. -/
def create_document (td : TitleData) (body_content : List Block)
    (references : List (List Char)) : List Rendered × Option DocErr :=
  match create_title_page td with
  | (items, some e) =>
    ([Rendered.setDefaults, Rendered.setMargins, Rendered.addPageNumbers] ++ items,
      some e)
  | (items, none) =>
    ([Rendered.setDefaults, Rendered.setMargins, Rendered.addPageNumbers] ++ items ++
      [Rendered.pageBreak] ++ (create_body body_content).map Rendered.bodyPara ++
      [Rendered.pageBreak] ++ create_references references, none)

/-! ### Shared lemmas -/

theorem toLower_tick : Char.toLower tick = tick := by decide

theorem tick_not_mem_refsWord : tick ∉ refsWord := by decide

theorem tick_not_mem_dashes : tick ∉ dashes := by decide

/-- A line containing a backtick can never lowercase to `"references"`. -/
theorem lowerList_ne_refsWord_of_tick {s : List Char} (h : tick ∈ s) :
    lowerList s ≠ refsWord := by
  intro heq
  have hm : tick ∈ lowerList s := by
    have := List.mem_map_of_mem Char.toLower h
    rwa [toLower_tick] at this
  rw [heq] at hm
  exact tick_not_mem_refsWord hm

/-- A line containing a backtick is not the `---` token. -/
theorem ne_dashes_of_tick {s : List Char} (h : tick ∈ s) : s ≠ dashes := by
  intro heq
  rw [heq] at h
  exact tick_not_mem_dashes h

/-- A newline-free raw text is a single line. -/
theorem splitLines_no_newline :
    ∀ {s : List Char}, '\n' ∉ s → splitLines s = [s]
  | [], _ => rfl
  | c :: rest, h => by
    have hc : ¬ c = '\n' := fun hh => h (hh ▸ List.mem_cons_self c rest)
    have hr : '\n' ∉ rest := fun hh => h (List.mem_cons_of_mem c hh)
    rw [splitLines, if_neg hc, splitLines_no_newline hr]

theorem afterTicks2_decomp :
    ∀ {s rest : List Char}, afterTicks2 s = some rest →
      ∃ pre, s = pre ++ tick :: tick :: rest
  | [], _, h => by simp [afterTicks2] at h
  | [_], _, h => by simp [afterTicks2] at h
  | a :: b :: r, rest, h => by
    rw [afterTicks2] at h
    by_cases hab : a = tick ∧ b = tick
    · rw [if_pos hab] at h
      exact ⟨[], by simp [hab.1, hab.2, Option.some.inj h]⟩
    · rw [if_neg hab] at h
      obtain ⟨pre, hpre⟩ := afterTicks2_decomp h
      exact ⟨a :: pre, by simp [← hpre]⟩

theorem upToTicks2_decomp :
    ∀ {s content : List Char}, upToTicks2 s = some content →
      ∃ post, s = content ++ tick :: tick :: post
  | [], _, h => by simp [upToTicks2] at h
  | [_], _, h => by simp [upToTicks2] at h
  | a :: b :: r, content, h => by
    rw [upToTicks2] at h
    by_cases hab : a = tick ∧ b = tick
    · rw [if_pos hab] at h
      have hc : content = [] := (Option.some.inj h).symm
      exact ⟨r, by simp [hc, hab.1, hab.2]⟩
    · rw [if_neg hab] at h
      match hme : upToTicks2 (b :: r) with
      | none => rw [hme] at h; simp at h
      | some content2 =>
        rw [hme] at h
        simp at h
        obtain ⟨post, hpost⟩ := upToTicks2_decomp hme
        refine ⟨post, ?_⟩
        rw [← h, List.cons_append]
        rw [← hpost]

/-- A successful double-backtick extraction exhibits the input as text around
a balanced double-backtick span whose inner text is the extracted formula. -/
theorem search2_decomp {s f : List Char} (h : search2 s = some f) :
    ∃ pre post, s = pre ++ tick :: tick :: (f ++ tick :: tick :: post) := by
  rw [search2] at h
  split at h
  · simp at h
  · simp at h
  · rename_i c rest hma
    split at h
    · simp at h
    · rename_i content hmu
      have hf : c :: content = f := Option.some.inj h
      obtain ⟨pre, hpre⟩ := afterTicks2_decomp hma
      obtain ⟨post, hpost⟩ := upToTicks2_decomp hmu
      refine ⟨pre, post, ?_⟩
      rw [hpre, hpost, ← hf]
      simp

theorem tick_mem_of_search2 {s f : List Char} (h : search2 s = some f) :
    tick ∈ s := by
  obtain ⟨pre, post, hs⟩ := search2_decomp h
  rw [hs]
  simp

theorem search2_ne_nil {s f : List Char} (h : search2 s = some f) : f ≠ [] := by
  rw [search2] at h
  split at h
  · simp at h
  · simp at h
  · split at h
    · simp at h
    · rw [← Option.some.inj h]
      simp

theorem search1_ne_nil {s f : List Char} (h : search1 s = some f) : f ≠ [] := by
  rw [search1] at h
  split at h
  · simp at h
  · simp at h
  · split at h
    · simp at h
    · rw [← Option.some.inj h]
      simp

/-! ### Block invariants maintained by the parser loop -/

/-- The data-model invariant actually maintained by `parse`: heading levels lie
in `[1,5]`, and paragraph/formula text is non-empty. (Heading text is NOT
covered: it can be empty.) -/
def blockOK : Block → Prop
  | Block.heading level _ => 1 ≤ level ∧ level ≤ 5
  | Block.paragraph text => text ≠ []
  | Block.math formula => formula ≠ []

/-- Loop invariant: all emitted blocks satisfy `blockOK` and every buffered
paragraph line is non-empty. -/
def stOK (st : ParseState) : Prop :=
  (∀ b ∈ st.body_content, blockOK b) ∧ ∀ l ∈ st.current_paragraph, l ≠ []

theorem joinSpace_ne_nil :
    ∀ (x : List Char) (xs : List (List Char)), x ≠ [] →
      joinSpace (x :: xs) ≠ []
  | x, [], hx => by simpa [joinSpace] using hx
  | _, _ :: _, _ => by simp [joinSpace]

theorem flushPara_ok {st : ParseState} (h : stOK st) : stOK (flushPara st) := by
  rw [flushPara]
  split
  · exact h
  · rename_i hc
    constructor
    · intro b hb
      rcases List.mem_append.mp hb with h1 | h2
      · exact h.1 b h1
      · have hb2 := List.mem_singleton.mp h2
        subst hb2
        show joinSpace st.current_paragraph ≠ []
        obtain ⟨x, xs, hcur⟩ : ∃ x xs, st.current_paragraph = x :: xs := by
          cases hq : st.current_paragraph with
          | nil => exact absurd hq hc
          | cons x xs => exact ⟨x, xs, rfl⟩
        rw [hcur]
        exact joinSpace_ne_nil x xs (h.2 x (hcur ▸ List.mem_cons_self x xs))
    · intro l hl
      exact absurd hl (List.not_mem_nil l)

theorem emitHeading_ok {st : ParseState} (h : stOK st) {s : List Char}
    (hs : startsWithHash s = true) : stOK (emitHeading st s) := by
  constructor
  · intro b hb
    rcases List.mem_append.mp hb with h1 | h2
    · exact h.1 b h1
    · have hb2 := List.mem_singleton.mp h2
      subst hb2
      refine ⟨?_, min_le_right _ _⟩
      apply Nat.le_min.mpr
      refine ⟨?_, by norm_num⟩
      cases s with
      | nil => exact absurd hs (by simp [startsWithHash])
      | cons c s' =>
        have hc : c = hashChar := by
          rw [startsWithHash] at hs
          exact of_decide_eq_true hs
        rw [List.takeWhile_cons]
        simp [hc]
  · exact h.2

theorem emitFormula_ok {st : ParseState} (h : stOK st) (s : List Char) :
    stOK (emitFormula st s) := by
  rw [emitFormula]
  split
  · rename_i f hf
    have hfne : f ≠ [] := by
      split at hf
      · exact (Option.some.inj hf) ▸ search2_ne_nil ‹_›
      · exact search1_ne_nil hf
    constructor
    · intro b hb
      rcases List.mem_append.mp hb with h1 | h2
      · exact h.1 b h1
      · have hb2 := List.mem_singleton.mp h2
        subst hb2
        exact hfne
    · exact h.2
  · exact h

theorem parseLine_ok {st : ParseState} (h : stOK st) (line : List Char)
    (rest : List (List Char)) : stOK (parseLine st line rest) := by
  rw [parseLine]
  split
  · apply flushPara_ok
    split
    · split
      · exact h
      · exact h
    · exact h
  · split
    · split
      · exact h
      · exact h
    · split
      · exact emitHeading_ok (flushPara_ok h) ‹_›
      · split
        · exact emitFormula_ok (flushPara_ok h) _
        · split
          · rename_i hcond
            constructor
            · exact h.1
            · intro l hl
              rcases List.mem_append.mp hl with h1 | h2
              · exact h.2 l h1
              · exact (List.mem_singleton.mp h2) ▸ hcond.1
          · split
            · exact flushPara_ok h
            · exact h

theorem parseLoop_ok :
    ∀ (lines : List (List Char)) {st : ParseState}, stOK st →
      stOK (parseLoop lines st)
  | [], _, h => h
  | l :: rest, _, h => parseLoop_ok rest (parseLine_ok h l rest)

/-! ### Claim theorems -/

/-- Claim C9 (confirmed): `parse` is a total function returning a
(body blocks, references) pair — in this embedding it is a total Lean
function, every guarded lookup of the source being modelled without partial
operations — and the empty input yields zero body blocks and zero
references. -/
theorem parse_is_total_and_empty_input_yields_nothing :
    (∀ raw_text : List Char, ∃ result, parse raw_text = result) ∧
      parse [] = ([], []) :=
  ⟨fun raw => ⟨parse raw, rfl⟩, by decide⟩

/-- Bool form of the claimed (too strong) text-nonemptiness invariant. -/
def blockTextNonempty : Block → Bool
  | Block.heading _ t => !t.isEmpty
  | Block.paragraph t => !t.isEmpty
  | Block.math f => !f.isEmpty

/-- Claim C5 counterexample: the single line `#` parses to a level-1 heading
whose text is empty, so "the text field of every emitted block is non-empty"
fails. -/
theorem heading_with_empty_text_counterexample :
    (parse ("#".toList)).1 = [Block.heading 1 []] ∧
      ((parse ("#".toList)).1.all blockTextNonempty) = false := by
  constructor
  · decide
  · decide

/-- Claim C5 (corrected): for every input, every emitted Heading block's level
lies in `[1,5]` and every emitted Paragraph and Formula block has non-empty
text; a Heading's text, however, may be empty. -/
theorem parse_emits_only_invariant_blocks (raw_text : List Char) :
    ∀ b ∈ (parse raw_text).1, blockOK b := by
  intro b hb
  have h0 : stOK (⟨[], [], false, []⟩ : ParseState) :=
    ⟨fun _ hx => absurd hx (List.not_mem_nil _),
     fun _ hx => absurd hx (List.not_mem_nil _)⟩
  have h1 := flushPara_ok (parseLoop_ok (splitLines raw_text) h0)
  exact h1.1 b hb

/-- Witness for C5's theorem at the concrete input `"# x"`. -/
theorem parse_emits_only_invariant_blocks_witness :
    Block.heading 1 ['x'] ∈ (parse ("# x".toList)).1 ∧
      blockOK (Block.heading 1 ['x']) :=
  ⟨by decide, parse_emits_only_invariant_blocks ("# x".toList) _ (by decide)⟩

/-- Claim C6 (confirmed): a level-4/5 heading immediately followed by a
paragraph produces exactly one merged run-in directive — heading text plus
`". "` in a bold run (italic as well for level 5) joined with a plain run of
the paragraph text, left indent 0.5 in, first-line indent 0 — and the loop
advances past both consumed blocks. -/
theorem run_in_heading_merges_once (level : Nat) (text ptext : List Char)
    (rest : List Block) (h : level = 4 ∨ level = 5) :
    create_body (Block.heading level text :: Block.paragraph ptext :: rest) =
      (⟨none, some 50, some 0,
        [⟨text ++ [dotChar, spaceChar], true, level == 5⟩,
         ⟨ptext, false, false⟩]⟩ : Para) :: create_body rest := by
  simp only [create_body, if_pos h, runInPara]

/-- Witness for C6's theorem: a level-5 heading plus paragraph. -/
theorem run_in_heading_merges_once_witness :
    create_body
        [Block.heading 5 "Findings".toList,
         Block.paragraph "Data shows.".toList] =
      [⟨none, some 50, some 0,
        [⟨"Findings".toList ++ [dotChar, spaceChar], true, true⟩,
         ⟨"Data shows.".toList, false, false⟩]⟩] := by
  simpa [create_body] using
    run_in_heading_merges_once 5 "Findings".toList "Data shows.".toList []
      (Or.inr rfl)

/-- Does a block list start with a paragraph block? (the lookahead test of
`_create_body`). -/
def headIsParagraphBlock : List Block → Bool
  | Block.paragraph _ :: _ => true
  | _ => false

/-- Claim C7 (confirmed): a standalone level-4/5 heading (not followed by a
paragraph) gets a trailing-period run exactly when its text does not already
end with `'.'`. -/
theorem standalone_heading_trailing_period (level : Nat) (text : List Char)
    (rest : List Block) (h : level = 4 ∨ level = 5)
    (hrest : headIsParagraphBlock rest = false) :
    create_body (Block.heading level text :: rest) =
      (⟨none, some 50, none,
        if text.getLast? = some dotChar then [⟨text, true, level == 5⟩]
        else [⟨text, true, level == 5⟩, ⟨[dotChar], false, false⟩]⟩ : Para) ::
        create_body rest := by
  have hhp : headingPara level text =
      ⟨none, some 50, none,
        if text.getLast? = some dotChar then [⟨text, true, level == 5⟩]
        else [⟨text, true, level == 5⟩, ⟨[dotChar], false, false⟩]⟩ := by
    rcases h with rfl | rfl <;> simp [headingPara]
  cases rest with
  | nil => simp only [create_body]; rw [hhp]
  | cons b rest2 =>
    cases b with
    | heading l2 t2 => simp only [create_body]; rw [hhp]
    | paragraph p2 => simp [headIsParagraphBlock] at hrest
    | math f2 => simp only [create_body]; rw [hhp]

/-- Witness for C7's theorem: text without a trailing period gains one. -/
theorem standalone_heading_trailing_period_witness :
    create_body [Block.heading 4 "Results".toList] =
      [⟨none, some 50, none,
        [⟨"Results".toList, true, false⟩, ⟨[dotChar], false, false⟩]⟩] := by
  have hth :=
    standalone_heading_trailing_period 4 "Results".toList [] (Or.inl rfl) rfl
  have hne : ¬("Results".toList.getLast? = some dotChar) := by decide
  rw [if_neg hne] at hth
  simpa [create_body] using hth

/-- Claim C1 counterexample: a `---` line followed by a lowercase-starting
line still flushes the accumulated paragraph and is consumed, so `"a"` and
`"b"` end up in two separate paragraphs instead of joining into one. -/
theorem dash_nonmarker_still_flushes_counterexample :
    parse ("a\n---\nb".toList) =
        ([Block.paragraph ['a'], Block.paragraph ['b']], []) ∧
      parse ("a\n---\nb".toList) ≠
        ([Block.paragraph ['a', ' ', 'b']], []) := by
  constructor <;> decide

/-- Claim C1 (corrected): a line whose trimmed lowercase content is
`"references"` flushes the paragraph, sets `in_references`, and is skipped;
a line whose trimmed content is `---`, when it is not the last line, ALWAYS
enters the marker branch — the accumulated paragraph is flushed and the line
is consumed without being emitted — while the `in_references` flag is set
exactly when the first non-empty remaining line starts with an uppercase
character. (The claim's "a `---` line whose following non-empty line starts
lowercase must not cause a flush or be consumed" is what fails.) -/
theorem marker_line_flushes_and_is_consumed (line : List Char)
    (rest : List (List Char)) (st : ParseState) :
    (lowerList (strip line) = refsWord →
      parseLoop (line :: rest) st =
        parseLoop rest (flushPara (setRefs st))) ∧
    (strip line = dashes → rest ≠ [] →
      parseLoop (line :: rest) st =
        parseLoop rest
          (flushPara (if nextLooksRef rest then setRefs st else st))) := by
  constructor
  · intro hl
    show parseLoop rest (parseLine st line rest) = _
    congr 1
    rw [parseLine, if_pos (Or.inl hl)]
    by_cases hd : strip line = dashes
    · exfalso
      rw [hd] at hl
      exact absurd hl (by decide)
    · rw [if_neg hd]
  · intro h1 h2
    show parseLoop rest (parseLine st line rest) = _
    congr 1
    rw [parseLine, if_pos (Or.inr ⟨h1, h2⟩), if_pos h1]

/-- Witness for C1's amended theorem: an uppercase `REFERENCES` line, and a
`---` line before a lowercase line, each with a buffered paragraph line. -/
theorem marker_line_flushes_and_is_consumed_witness :
    (parseLoop ["REFERENCES".toList] ⟨[], [], false, [['a']]⟩ =
        parseLoop [] (flushPara (setRefs ⟨[], [], false, [['a']]⟩))) ∧
      (parseLoop ["---".toList, "smith ref".toList]
          ⟨[], [], false, [['a']]⟩ =
        parseLoop ["smith ref".toList]
          (flushPara
            (if nextLooksRef ["smith ref".toList]
             then setRefs ⟨[], [], false, [['a']]⟩
             else ⟨[], [], false, [['a']]⟩))) :=
  ⟨(marker_line_flushes_and_is_consumed "REFERENCES".toList [] _).1
      (by decide),
   (marker_line_flushes_and_is_consumed "---".toList
      ["smith ref".toList] _).2 (by decide) (by decide)⟩

/-- Claim C2 counterexample: the unmatched-backtick line `` x`y `` flushes the
paragraph buffer, so `"a"` and `"b"` do not join into one paragraph. -/
theorem unmatched_backtick_flush_counterexample :
    parse ("a\nx`y\nb".toList) =
        ([Block.paragraph ['a'], Block.paragraph ['b']], []) ∧
      parse ("a\nx`y\nb".toList) ≠
        ([Block.paragraph ['a', ' ', 'b']], []) := by
  constructor <;> decide

/-- Claim C2 (corrected): a line containing a backtick always flushes the
accumulated paragraph, before any extraction is attempted; when neither
delimited pattern matches, no block is emitted and the line's own text is
dropped, but the flush has already happened. -/
theorem backtick_line_flushes_even_without_match (line : List Char)
    (rest : List (List Char)) (st : ParseState)
    (hin : st.in_references = false)
    (ht : tick ∈ strip line)
    (hh : startsWithHash (strip line) = false)
    (hs2 : search2 (strip line) = none)
    (hs1 : search1 (strip line) = none) :
    parseLoop (line :: rest) st = parseLoop rest (flushPara st) := by
  show parseLoop rest (parseLine st line rest) = _
  congr 1
  have hmarker :
      ¬(lowerList (strip line) = refsWord ∨
        (strip line = dashes ∧ rest ≠ [])) := by
    rintro (hl | ⟨hd, _⟩)
    · exact lowerList_ne_refsWord_of_tick ht hl
    · exact ne_dashes_of_tick ht hd
  rw [parseLine, if_neg hmarker, if_neg (by simp [hin]),
    if_neg (by simp [hh]), if_pos (Or.inr ht)]
  simp [emitFormula, hs2, hs1]

/-- Witness for C2's amended theorem at the line `` x`y ``. -/
theorem backtick_line_flushes_even_without_match_witness :
    parseLoop ["x`y".toList] ⟨[], [], false, [['a']]⟩ =
      parseLoop [] (flushPara ⟨[], [], false, [['a']]⟩) :=
  backtick_line_flushes_even_without_match "x`y".toList [] _
    rfl (by decide) (by decide) (by decide) (by decide)

/-- Claim C3 counterexample: a second `References` line inside the references
section is consumed by the marker check and dropped, not appended. -/
theorem marker_inside_references_dropped_counterexample :
    parse ("References\nSmith\nReferences\nJones".toList) =
        ([], ["Smith".toList, "Jones".toList]) ∧
      "References".toList ∉
        (parse ("References\nSmith\nReferences\nJones".toList)).2 := by
  constructor <;> decide

/-- Claim C3 (corrected): once `in_references` is true, every non-empty
trimmed line that does not itself satisfy the marker condition is appended
verbatim (trimmed) to the references; but a line matching the marker
condition (`"references"` case-insensitively here; the non-final `---` case
is covered by C1's theorem) is consumed again by the marker check, leaving
the reference sequence unchanged, i.e. it is dropped. -/
theorem references_mode_appends_nonmarker_lines (line : List Char)
    (rest : List (List Char)) (st : ParseState)
    (hin : st.in_references = true) :
    (strip line ≠ [] → lowerList (strip line) ≠ refsWord →
      ¬(strip line = dashes ∧ rest ≠ []) →
      parseLoop (line :: rest) st =
        parseLoop rest (addRef st (strip line))) ∧
    (lowerList (strip line) = refsWord →
      parseLoop (line :: rest) st =
          parseLoop rest (flushPara (setRefs st)) ∧
        (flushPara (setRefs st)).references = st.references) := by
  constructor
  · intro hne href hdash
    show parseLoop rest (parseLine st line rest) = _
    congr 1
    have hmarker :
        ¬(lowerList (strip line) = refsWord ∨
          (strip line = dashes ∧ rest ≠ [])) := by
      rintro (hl | hd)
      · exact href hl
      · exact hdash hd
    rw [parseLine, if_neg hmarker, if_pos hin, if_pos hne]
  · intro hl
    constructor
    · show parseLoop rest (parseLine st line rest) = _
      congr 1
      rw [parseLine, if_pos (Or.inl hl)]
      by_cases hd : strip line = dashes
      · exfalso
        rw [hd] at hl
        exact absurd hl (by decide)
      · rw [if_neg hd]
    · rw [flushPara]
      split
      · rfl
      · rfl

/-- Witness for C3's amended theorem: the entry `Smith, A.` is appended; a
second `References` line is consumed and leaves the references unchanged. -/
theorem references_mode_appends_nonmarker_lines_witness :
    (parseLoop ["Smith, A.".toList] ⟨[], [], true, []⟩ =
        parseLoop [] (addRef ⟨[], [], true, []⟩ (strip "Smith, A.".toList))) ∧
      (parseLoop ["References".toList] ⟨[], [], true, []⟩ =
          parseLoop [] (flushPara (setRefs ⟨[], [], true, []⟩)) ∧
        (flushPara (setRefs (⟨[], [], true, []⟩ : ParseState))).references =
          []) :=
  ⟨(references_mode_appends_nonmarker_lines "Smith, A.".toList [] _ rfl).1
      (by decide) (by decide) (by decide),
   (references_mode_appends_nonmarker_lines "References".toList [] _ rfl).2
      (by decide)⟩

/-- Claim C10 counterexample: when the parser is already inside the
references section, a final `---` line is appended as a reference entry,
so it does contribute content. -/
theorem final_dash_inside_references_counterexample :
    parse ("References\nSmith\n---".toList) =
        ([], ["Smith".toList, "---".toList]) ∧
      "---".toList ∈ (parse ("References\nSmith\n---".toList)).2 := by
  constructor <;> decide

/-- Claim C10 (corrected): outside the references section, a final line whose
trimmed content is `---` is not a marker (no line follows it) and behaves like
a blank line: it flushes any accumulated paragraph and contributes nothing;
inside the references section, however, it is appended as a reference entry. -/
theorem final_dash_line_outside_references_flushes (line : List Char)
    (st : ParseState) (hin : st.in_references = false)
    (hd : strip line = dashes) :
    parseLoop [line] st = flushPara st := by
  show parseLine st line [] = _
  have hmarker :
      ¬(lowerList (strip line) = refsWord ∨
        (strip line = dashes ∧ ([] : List (List Char)) ≠ [])) := by
    rintro (hl | ⟨_, hne⟩)
    · rw [hd] at hl
      exact absurd hl (by decide)
    · exact hne rfl
  have hh : ¬(startsWithHash (strip line) = true) := by
    rw [hd]; decide
  have hf : ¬((afterTicks2 (strip line)).isSome = true ∨ tick ∈ strip line) := by
    rw [hd]; decide
  have ha : ¬(strip line ≠ [] ∧ startsWith3Dashes (strip line) = false) := by
    rw [hd]; decide
  rw [parseLine, if_neg hmarker, if_neg (by simp [hin]), if_neg hh,
    if_neg hf, if_neg ha]
  by_cases hc : st.current_paragraph = [] <;> simp [hc, flushPara]

/-- Witness for C10's amended theorem at the final line `" --- "`. -/
theorem final_dash_line_outside_references_flushes_witness :
    parseLoop [" --- ".toList] ⟨[], [], false, [['a']]⟩ =
      flushPara ⟨[], [], false, [['a']]⟩ :=
  final_dash_line_outside_references_flushes " --- ".toList _ rfl (by decide)

/-- Claim C4 counterexample: with `title` absent, `create_document` does fail,
but only after global defaults, margins, the page-number header, and three
blank title-page paragraphs have been added — the rendered prefix is not
empty, contradicting "no document content is produced before the failure". -/
theorem missing_title_partial_render_counterexample :
    create_document ⟨none, none, none, none, none, none⟩ [] [] =
        ([Rendered.setDefaults, Rendered.setMargins, Rendered.addPageNumbers,
          Rendered.blankPara, Rendered.blankPara, Rendered.blankPara],
          some DocErr.keyErrorTitle) ∧
      (create_document ⟨none, none, none, none, none, none⟩ [] []).1 ≠ [] := by
  constructor <;> decide

/-- Claim C4 (corrected): for every title-data mapping lacking `title`,
document creation fails (a `KeyError` from the `title_data['title']` lookup)
before the body or references are rendered and before anything is persisted —
but only after defaults, margins, the page-number header and three blank
title-page paragraphs have been added to the in-memory document. -/
theorem missing_title_fails_after_partial_render (td : TitleData)
    (body_content : List Block) (references : List (List Char))
    (h : td.title = none) :
    create_document td body_content references =
      ([Rendered.setDefaults, Rendered.setMargins, Rendered.addPageNumbers,
        Rendered.blankPara, Rendered.blankPara, Rendered.blankPara],
        some DocErr.keyErrorTitle) := by
  rw [create_document, create_title_page, h]
  rfl

/-- Witness for C4's amended theorem: author present, title absent. -/
theorem missing_title_fails_after_partial_render_witness :
    create_document ⟨none, some "Jane Doe".toList, none, none, none, none⟩
        [] [] =
      ([Rendered.setDefaults, Rendered.setMargins, Rendered.addPageNumbers,
        Rendered.blankPara, Rendered.blankPara, Rendered.blankPara],
        some DocErr.keyErrorTitle) :=
  missing_title_fails_after_partial_render _ _ _ rfl

/-- Claim C8 (confirmed): a (single-line, non-heading) input on which the
double-backtick search succeeds parses to exactly one Formula block whose
text is the extraction result, and that result is literally the substring
between a balanced pair of double-backtick delimiters in the stripped line;
the double-backtick extraction is attempted before the single-backtick
fallback. -/
theorem double_backtick_formula_extraction (s f : List Char)
    (hnl : '\n' ∉ s)
    (hh : startsWithHash (strip s) = false)
    (hf : search2 (strip s) = some f) :
    parse s = ([Block.math f], []) ∧
      ∃ pre post,
        strip s = pre ++ tick :: tick :: (f ++ tick :: tick :: post) := by
  refine ⟨?_, search2_decomp hf⟩
  have ht : tick ∈ strip s := tick_mem_of_search2 hf
  have hline : parseLine ⟨[], [], false, []⟩ s [] =
      ⟨[Block.math f], [], false, []⟩ := by
    have hmarker :
        ¬(lowerList (strip s) = refsWord ∨
          (strip s = dashes ∧ ([] : List (List Char)) ≠ [])) := by
      rintro (hl | ⟨_, hne⟩)
      · exact lowerList_ne_refsWord_of_tick ht hl
      · exact hne rfl
    rw [parseLine, if_neg hmarker, if_neg (by simp), if_neg (by simp [hh]),
      if_pos (Or.inr ht)]
    simp [emitFormula, flushPara, hf]
  have hp : parse s =
      ((flushPara (parseLoop (splitLines s) ⟨[], [], false, []⟩)).body_content,
       (flushPara (parseLoop (splitLines s) ⟨[], [], false, []⟩)).references) :=
    rfl
  rw [hp, splitLines_no_newline hnl]
  have hstep : parseLoop [s] (⟨[], [], false, []⟩ : ParseState) =
      parseLine ⟨[], [], false, []⟩ s [] := rfl
  rw [hstep, hline]
  rfl

/-- Witness for C8's theorem at the line `see ``a+b`` ok`. -/
theorem double_backtick_formula_extraction_witness :
    parse ("see ``a+b`` ok".toList) = ([Block.math "a+b".toList], []) ∧
      ∃ pre post,
        strip ("see ``a+b`` ok".toList) =
          pre ++ tick :: tick :: ("a+b".toList ++ tick :: tick :: post) :=
  double_backtick_formula_extraction "see ``a+b`` ok".toList "a+b".toList
    (by decide) (by decide) (by decide)

end ApaSpec
